import Mathlib

/-!
File service: upload, retrieve and delete over a catalog and a blob directory.

A shallow embedding of `src/index.js` and `src/db/models/FileStorage.js`.

* The blob directory is a finite map from paths to byte contents, the catalog is the list of
  rows of the `FileStorage` table together with its auto-increment counter.
* The three route handlers are total functions from an environment (clock, random number,
  injected failures of the collaborators), a state and a request to an outcome: the HTTP
  response, the state afterwards and the ordered list of collaborator calls that were made.
* `Number(fileId)` and the integer primary key are modelled on the characters of the
  identifier, since the handlers receive it as text.
-/

namespace FileService

/-! ## Text of numbers -/

/-- A decimal digit `0` .. `9`. -/
def isDecimalDigit (c : Char) : Bool := 48 ≤ c.toNat && c.toNat ≤ 57

/-- A binary digit. -/
def isBinaryDigit (c : Char) : Bool := c.toNat = 48 || c.toNat = 49

/-- An octal digit. -/
def isOctalDigit (c : Char) : Bool := 48 ≤ c.toNat && c.toNat ≤ 55

/-- A hexadecimal digit, either case. -/
def isHexDigit (c : Char) : Bool :=
  isDecimalDigit c || (97 ≤ c.toNat && c.toNat ≤ 102) || (65 ≤ c.toNat && c.toNat ≤ 70)

/-- White space and line terminators that `Number` strips from both ends of a string. -/
def isStrWhiteSpaceChar (c : Char) : Bool :=
  c.toNat = 0x09 || c.toNat = 0x0A || c.toNat = 0x0B || c.toNat = 0x0C || c.toNat = 0x0D ||
  c.toNat = 0x20 || c.toNat = 0xA0 || c.toNat = 0x1680 ||
  (0x2000 ≤ c.toNat && c.toNat ≤ 0x200A) ||
  c.toNat = 0x2028 || c.toNat = 0x2029 || c.toNat = 0x202F || c.toNat = 0x205F ||
  c.toNat = 0x3000 || c.toNat = 0xFEFF

/-- Strip leading and trailing white space. -/
def trimString (cs : List Char) : List Char :=
  ((cs.dropWhile isStrWhiteSpaceChar).reverse.dropWhile isStrWhiteSpaceChar).reverse

/-- One or more characters, all satisfying `p`. -/
def digits1 (p : Char → Bool) (cs : List Char) : Bool := !cs.isEmpty && cs.all p

/-- The grammar `SignedInteger` of an exponent: digits with an optional sign. -/
def isSignedInteger (cs : List Char) : Bool :=
  match cs with
  | [] => false
  | c :: r => if c = '+' ∨ c = '-' then digits1 isDecimalDigit r
              else digits1 isDecimalDigit (c :: r)

/-- An optional exponent part: nothing, or `e` / `E` followed by a signed integer. -/
def isExponentPartOpt (cs : List Char) : Bool :=
  match cs with
  | [] => true
  | c :: r => (c = 'e' || c = 'E') && isSignedInteger r

/-- The grammar `StrUnsignedDecimalLiteral`: `Infinity`, `d+ . d* exp?`, `. d+ exp?`,
`d+ exp?`. -/
def isStrUnsignedDecimalLiteral (cs : List Char) : Bool :=
  cs = "Infinity".toList ||
  (match cs.dropWhile isDecimalDigit with
   | [] => !(cs.takeWhile isDecimalDigit).isEmpty
   | c :: r =>
     if c = '.' then
       (!(cs.takeWhile isDecimalDigit).isEmpty || !(r.takeWhile isDecimalDigit).isEmpty) &&
         isExponentPartOpt (r.dropWhile isDecimalDigit)
     else
       !(cs.takeWhile isDecimalDigit).isEmpty && isExponentPartOpt (c :: r))

/-- The grammar `StrDecimalLiteral`: an unsigned decimal literal with an optional sign. -/
def isStrDecimalLiteral (cs : List Char) : Bool :=
  match cs with
  | [] => false
  | c :: r => if c = '+' ∨ c = '-' then isStrUnsignedDecimalLiteral r
              else isStrUnsignedDecimalLiteral (c :: r)

/-- The grammar `NonDecimalIntegerLiteral`: `0b`, `0o` or `0x` (either case) and digits of
that base; no sign. -/
def isNonDecimalIntegerLiteral (cs : List Char) : Bool :=
  match cs with
  | z :: p :: ds =>
    z = '0' &&
      (((p = 'b' || p = 'B') && digits1 isBinaryDigit ds) ||
       ((p = 'o' || p = 'O') && digits1 isOctalDigit ds) ||
       ((p = 'x' || p = 'X') && digits1 isHexDigit ds))
  | _ => false

/-- The test `isNaN(Number(fileId))` of both `:fileId` routes. `Number` applied to a string
is a number other than NaN exactly when the string, stripped of white space, is empty or is
a numeric literal of the language; the test is true otherwise. -/
def isNaNNumber (fileId : String) : Bool :=
  !((trimString fileId.toList).isEmpty ||
    isNonDecimalIntegerLiteral (trimString fileId.toList) ||
    isStrDecimalLiteral (trimString fileId.toList))

/-- Largest value of the `INTEGER` primary key `fileId`. -/
def maxPk : Nat := 2147483647

/-- The value denoted by a sequence of decimal digits. -/
def digitsValue (cs : List Char) : Nat :=
  cs.foldl (fun a c => 10 * a + (c.toNat - 48)) 0

/-- How the catalog reads the text it is given for the integer primary key: a non-empty
sequence of decimal digits whose value fits the column denotes that value; any other text is
not an identifier of the store. -/
def readPk (fileId : String) : Option Nat :=
  if digits1 isDecimalDigit fileId.toList ∧ digitsValue fileId.toList ≤ maxPk then
    some (digitsValue fileId.toList)
  else none

/-! ## Storage keys -/

/-- A path separator, forward slash or backslash. -/
def isPathSeparator (c : Char) : Bool := c.toNat = 47 || c.toNat = 92

/-- The `filename` callback of the disk storage:
`Date.now() + '-' + Math.round(Math.random() * 1e9)`, a dash, and `file.originalname`.
`now` is the value of `Date.now()` and `random` the rounded random number. -/
def filename (now random : Nat) (originalname : String) : String :=
  let uniqueSuffix := toString now ++ "-" ++ toString random
  uniqueSuffix ++ "-" ++ originalname

/-- The base name that the multipart parser of the upload middleware keeps of the file name
a client sends. The middleware is built as `multer({ storage, limits })`, without
`preservePath`, so the parser cuts the name after its last forward slash or backslash, and
turns a remainder `.` or `..` into the empty name. -/
def basename (path : String) : String :=
  let tail := ((path.toList.reverse.takeWhile (fun c => !isPathSeparator c)).reverse).asString
  if tail = ".." ∨ tail = "." then "" else tail

/-- The path at which the disk storage writes a file: the name inside the destination. -/
def pathJoin (directory name : String) : String := directory ++ "/" ++ name

/-- The limit `fileSize` given to the upload middleware: 10 MB. -/
def fileSizeLimit : Nat := 10 * 1024 * 1024

/-! ## State -/

/-- Content of a file. -/
abbrev Bytes := List (Fin 256)

/-- A row of the model `FileStorage` (with the two timestamp columns). -/
structure FileRecord where
  fileId : Nat
  originalName : String
  filePath : String
  mimeType : String
  size : Nat
  createdAt : Nat
  updatedAt : Nat
deriving DecidableEq, Repr

/-- The catalog table with its auto-increment counter, and the files on disk. -/
structure State where
  catalog : List FileRecord
  nextId : Nat
  blobs : List (String × Bytes)
deriving DecidableEq, Repr

/-- The file part of a multipart request, as the middleware hands it on. -/
structure FilePart where
  originalname : String
  mimetype : String
  content : Bytes
deriving DecidableEq, Repr

/-- The file part of a multipart request as the client sends it: the file name of its
content disposition, its content type and its bytes. -/
structure ClientPart where
  filename : String
  mimetype : String
  content : Bytes
deriving DecidableEq, Repr

/-- What the middleware makes of a client's file part: `originalname` is the base name of the
file name sent. -/
def receivePart (client : ClientPart) : FilePart :=
  { originalname := basename client.filename, mimetype := client.mimetype,
    content := client.content }

/-- What a request meets outside the handlers: the upload directory, the clock read by the
`filename` callback, the random number, the time at which the store stamps a new row, and
which collaborator calls fail. `unlinkFails` is a failure of the removal for a reason other
than the file being absent. -/
structure Env where
  uploadDirectory : String
  now : Nat
  random : Nat
  insertTime : Nat
  writeFails : Bool
  createFails : Bool
  findFails : Bool
  unlinkFails : Bool
  destroyFails : Bool
deriving DecidableEq, Repr

/-- Calls made to the collaborators, in order. -/
inductive Effect where
  | writeFile (path : String)
  | create (filePath : String)
  | findByPk (fileId : String)
  | sendFile (path : String)
  | unlink (path : String)
  | destroy (fileId : String)
deriving DecidableEq, Repr

/-- Body of a response. -/
inductive Body where
  | error (message : String)
  | fileId (id : Nat)
  | success (flag : Bool)
  | file (content : Bytes)
  | unhandled
deriving DecidableEq, Repr

/-- An HTTP response: status, the `Content-Type` set by the handler, body. -/
structure Response where
  status : Nat
  contentType : Option String
  body : Body
deriving DecidableEq, Repr

/-- Result of handling one request. -/
structure Outcome where
  response : Response
  state : State
  trace : List Effect
deriving DecidableEq, Repr

/-! ## Collaborators -/

/-- The `path` of an uploaded file: the generated name inside the upload directory. -/
def finalPath (env : Env) (originalname : String) : String :=
  pathJoin env.uploadDirectory (filename env.now env.random originalname)

/-- Content of the file at `path`, if there is one. -/
def readBlob (blobs : List (String × Bytes)) (path : String) : Option Bytes :=
  (blobs.find? (fun b => b.1 == path)).map (fun b => b.2)

/-- The directory without the file at `path`. -/
def removeBlob (blobs : List (String × Bytes)) (path : String) : List (String × Bytes) :=
  blobs.filter (fun b => !(b.1 == path))

/-- The directory after a write stream to `path` has finished: the file is created or
replaced. -/
def writeBlob (blobs : List (String × Bytes)) (path : String) (content : Bytes) :
    List (String × Bytes) :=
  (path, content) :: removeBlob blobs path

/-- The call `fs.unlinkSync(path)`: throws (`none`) when the file is absent or the removal
fails for another reason, otherwise the file is gone. -/
def unlinkSync (env : Env) (blobs : List (String × Bytes)) (path : String) :
    Option (List (String × Bytes)) :=
  if env.unlinkFails then none
  else if (readBlob blobs path).isSome then some (removeBlob blobs path)
  else none

/-- The row with primary key `k`. -/
def findRecord (catalog : List FileRecord) (k : Nat) : Option FileRecord :=
  catalog.find? (fun r => r.fileId == k)

/-- The call `FileStorage.findByPk(fileId)`: rejects (`none`) when the store fails or cannot
read the text as an integer key, otherwise resolves to the row or to null. -/
def findByPk (env : Env) (st : State) (fileId : String) : Option (Option FileRecord) :=
  if env.findFails then none
  else match readPk fileId with
    | none => none
    | some k => some (findRecord st.catalog k)

/-- The call `FileStorage.destroy({ where: { fileId } })`: rejects (`none`) when the store
fails or cannot read the text, otherwise the rows with that key are gone. -/
def destroy (env : Env) (st : State) (fileId : String) : Option State :=
  if env.destroyFails then none
  else match readPk fileId with
    | none => none
    | some k => some { st with catalog := st.catalog.filter (fun r => !(r.fileId == k)) }

/-- The call `FileStorage.create({ originalName, filePath, mimeType, size })`: the key is
the next value of the counter; rejects (`none`, with the state left behind) when the store
fails, when the counter has left the range of the column, or when a row already has the
key. -/
def create (env : Env) (st : State) (originalName filePath mimeType : String) (size : Nat) :
    Option FileRecord × State :=
  if env.createFails then (none, st)
  else if maxPk < st.nextId then (none, st)
  else if (findRecord st.catalog st.nextId).isSome then
    (none, { st with nextId := st.nextId + 1 })
  else
    let r : FileRecord :=
      { fileId := st.nextId, originalName := originalName, filePath := filePath,
        mimeType := mimeType, size := size, createdAt := env.insertTime,
        updatedAt := env.insertTime }
    (some r, { st with catalog := st.catalog ++ [r], nextId := st.nextId + 1 })

/-! ## Route handlers -/

/-- The route `POST /api/v1/file/upload`: `upload.single('file')` followed by the handler.
The middleware names the file with `filename`, writes it into the upload directory and
refuses a file over the size limit; when it fails the handler does not run and the
framework answers. The handler answers 400 without a file, 201 with the new `fileId` when
the row is created and 500 when `create` rejects. -/
def postUpload (env : Env) (st : State) (file : Option FilePart) : Outcome :=
  match file with
  | none =>
    ⟨⟨400, none, .error "Invalid file format or missing file"⟩, st, []⟩
  | some part =>
    let path := finalPath env part.originalname
    if env.writeFails ∨ fileSizeLimit < part.content.length then
      ⟨⟨500, none, .unhandled⟩, st, [.writeFile path]⟩
    else
      let st1 : State := { st with blobs := writeBlob st.blobs path part.content }
      match create env st1 part.originalname path part.mimetype part.content.length with
      | (some fileRecord, st2) =>
        ⟨⟨201, none, .fileId fileRecord.fileId⟩, st2, [.writeFile path, .create path]⟩
      | (none, st2) =>
        ⟨⟨500, none, .error "Unexpected error during file upload"⟩, st2,
          [.writeFile path, .create path]⟩

/-- The upload route as a client meets it: the middleware parses the multipart request, then
the route of `postUpload` runs on the part it hands on. -/
def uploadRoute (env : Env) (st : State) (client : Option ClientPart) : Outcome :=
  postUpload env st (client.map receivePart)

/-- The route `GET /api/v1/file/:fileId`. A missing file makes `sendFile` fail after the
handler has returned, which the framework answers with 404. -/
def getFile (env : Env) (st : State) (fileId : String) : Outcome :=
  if isNaNNumber fileId then
    ⟨⟨400, none, .error "Invalid fileId format"⟩, st, []⟩
  else
    match findByPk env st fileId with
    | none => ⟨⟨500, none, .error "Unexpected server error"⟩, st, [.findByPk fileId]⟩
    | some none => ⟨⟨404, none, .error "File not found"⟩, st, [.findByPk fileId]⟩
    | some (some fileRecord) =>
      match readBlob st.blobs fileRecord.filePath with
      | some content =>
        ⟨⟨200, some fileRecord.mimeType, .file content⟩, st,
          [.findByPk fileId, .sendFile fileRecord.filePath]⟩
      | none =>
        ⟨⟨404, none, .unhandled⟩, st, [.findByPk fileId, .sendFile fileRecord.filePath]⟩

/-- The route `DELETE /api/v1/file/:fileId`. -/
def deleteFile (env : Env) (st : State) (fileId : String) : Outcome :=
  if isNaNNumber fileId then
    ⟨⟨400, none, .error "Invalid fileId format"⟩, st, []⟩
  else
    match findByPk env st fileId with
    | none => ⟨⟨500, none, .error "Unexpected server error"⟩, st, [.findByPk fileId]⟩
    | some none => ⟨⟨404, none, .error "File not found"⟩, st, [.findByPk fileId]⟩
    | some (some fileRecord) =>
      match unlinkSync env st.blobs fileRecord.filePath with
      | none =>
        ⟨⟨500, none, .error "Unexpected server error"⟩, st,
          [.findByPk fileId, .unlink fileRecord.filePath]⟩
      | some blobs =>
        match destroy env { st with blobs := blobs } fileId with
        | none =>
          ⟨⟨500, none, .error "Unexpected server error"⟩, { st with blobs := blobs },
            [.findByPk fileId, .unlink fileRecord.filePath, .destroy fileId]⟩
        | some st2 =>
          ⟨⟨200, none, .success true⟩, st2,
            [.findByPk fileId, .unlink fileRecord.filePath, .destroy fileId]⟩

/-! ## Consistency predicate -/

/-- No dangling record: the file of every row exists, and no two rows name the same file. -/
def NoDangling (st : State) : Prop :=
  (∀ r ∈ st.catalog, (readBlob st.blobs r.filePath).isSome = true) ∧
    (st.catalog.map (fun r => r.filePath)).Nodup

instance (st : State) : Decidable (NoDangling st) := by
  unfold NoDangling; infer_instance

/-! ## Sample data -/

/-- An environment in which nothing fails. -/
def env0 : Env :=
  { uploadDirectory := "/srv/uploads", now := 1700000000000, random := 123456789,
    insertTime := 1700000000002, writeFails := false, createFails := false,
    findFails := false, unlinkFails := false, destroyFails := false }

/-- The empty service, before any upload. -/
def st0 : State := { catalog := [], nextId := 1, blobs := [] }

/-- A five-byte text file named `a.txt`. -/
def partA : FilePart :=
  { originalname := "a.txt", mimetype := "text/plain", content := [104, 101, 108, 108, 111] }

/-- A state with one row whose file has gone missing. -/
def stDangling : State :=
  { catalog := [{ fileId := 1, originalName := "a.txt", filePath := "/srv/uploads/1-2-a.txt",
                  mimeType := "text/plain", size := 5, createdAt := 0, updatedAt := 0 }],
    nextId := 2, blobs := [] }

/-! ## Decimal numerals -/

theorem toDigitsCore_eq : ∀ (m fuel : Nat) (acc : List Char), m < fuel →
    Nat.toDigitsCore 10 fuel m acc = Nat.toDigits 10 m ++ acc := by
  intro m
  induction m using Nat.strong_induction_on with
  | _ m ih =>
    intro fuel acc hlt
    obtain ⟨f, rfl⟩ : ∃ f, fuel = f + 1 := ⟨fuel - 1, by omega⟩
    unfold Nat.toDigits
    simp only [Nat.toDigitsCore]
    by_cases h0 : m / 10 = 0
    · simp [h0]
    · simp only [h0, if_false]
      have hlt2 : m / 10 < m := by omega
      rw [ih (m / 10) hlt2 f _ (by omega), ih (m / 10) hlt2 m _ hlt2]
      simp

theorem toDigits_rec (n : Nat) : Nat.toDigits 10 n =
    if n / 10 = 0 then [Nat.digitChar (n % 10)]
    else Nat.toDigits 10 (n / 10) ++ [Nat.digitChar (n % 10)] := by
  conv_lhs => unfold Nat.toDigits
  simp only [Nat.toDigitsCore]
  by_cases h0 : n / 10 = 0
  · simp [h0]
  · simp only [h0, if_false]
    rw [toDigitsCore_eq (n / 10) n _ (by omega)]

theorem digitChar_toNat (d : Nat) (h : d < 10) : (Nat.digitChar d).toNat = 48 + d := by
  interval_cases d <;> rfl

theorem digitChar_isDecimalDigit (d : Nat) (h : d < 10) :
    isDecimalDigit (Nat.digitChar d) = true := by
  simp [isDecimalDigit, digitChar_toNat d h]; omega

theorem toDigits_all_digit (n : Nat) : ∀ c ∈ Nat.toDigits 10 n, isDecimalDigit c = true := by
  induction n using Nat.strong_induction_on with
  | _ n ih =>
    intro c hc
    rw [toDigits_rec] at hc
    have hd := digitChar_isDecimalDigit (n % 10) (Nat.mod_lt _ (by decide))
    split at hc
    · simp at hc; rw [hc]; exact hd
    · rcases List.mem_append.mp hc with h | h
      · exact ih (n / 10) (by omega) c h
      · simp at h; rw [h]; exact hd

theorem toDigits_ne_nil (n : Nat) : Nat.toDigits 10 n ≠ [] := by
  rw [toDigits_rec]; split <;> simp

theorem digitsValue_append (l : List Char) (c : Char) :
    digitsValue (l ++ [c]) = 10 * digitsValue l + (c.toNat - 48) := by
  simp [digitsValue, List.foldl_append]

theorem digitsValue_toDigits (n : Nat) : digitsValue (Nat.toDigits 10 n) = n := by
  induction n using Nat.strong_induction_on with
  | _ n ih =>
    rw [toDigits_rec]
    have hd := digitChar_toNat (n % 10) (Nat.mod_lt _ (by decide))
    split
    · next h0 =>
      simp [digitsValue, hd]; omega
    · next h0 =>
      rw [digitsValue_append, ih (n / 10) (by omega), hd]; omega

theorem toString_toList (n : Nat) : (toString n).toList = Nat.toDigits 10 n := rfl

theorem toDigits_injective {a b : Nat} (h : Nat.toDigits 10 a = Nat.toDigits 10 b) : a = b := by
  have := congrArg digitsValue h
  rwa [digitsValue_toDigits, digitsValue_toDigits] at this

/-- Splitting at the first dash: equal lists with dash-free prefixes have equal parts. -/
theorem split_at_sep {sep : Char} : ∀ (a a' x x' : List Char), sep ∉ a → sep ∉ a' →
    a ++ sep :: x = a' ++ sep :: x' → a = a' ∧ x = x' := by
  intro a
  induction a with
  | nil =>
    intro a' x x' _ ha' h
    cases a' with
    | nil => simpa using h
    | cons c t =>
      simp at h
      exact absurd (List.mem_cons.mpr (Or.inl h.1)) ha'
  | cons c t ih =>
    intro a' x x' ha ha' h
    cases a' with
    | nil =>
      simp at h
      exact absurd (List.mem_cons.mpr (Or.inl h.1.symm)) ha
    | cons c' t' =>
      simp only [List.cons_append, List.cons.injEq] at h
      have := ih t' x x' (fun hm => ha (List.mem_cons_of_mem _ hm))
        (fun hm => ha' (List.mem_cons_of_mem _ hm)) h.2
      exact ⟨by rw [h.1, this.1], this.2⟩

theorem dash_not_mem_toDigits (n : Nat) : '-' ∉ Nat.toDigits 10 n := by
  intro h
  have := toDigits_all_digit n _ h
  revert this; decide

theorem filename_toList (t r : Nat) (name : String) :
    (filename t r name).toList =
      Nat.toDigits 10 t ++ '-' :: (Nat.toDigits 10 r ++ '-' :: name.toList) := by
  show (((toString t ++ "-" ++ toString r) ++ "-") ++ name).data = _
  simp only [String.data_append]
  simp only [List.append_assoc]
  rfl

theorem filename_inj {t r t' r' : Nat} {name name' : String}
    (h : filename t r name = filename t' r' name') : t = t' ∧ r = r' ∧ name = name' := by
  have hl := congrArg String.toList h
  rw [filename_toList, filename_toList] at hl
  obtain ⟨h1, h2⟩ := split_at_sep _ _ _ _ (dash_not_mem_toDigits t) (dash_not_mem_toDigits t') hl
  obtain ⟨h3, h4⟩ := split_at_sep _ _ _ _ (dash_not_mem_toDigits r) (dash_not_mem_toDigits r') h2
  exact ⟨toDigits_injective h1, toDigits_injective h3, String.ext h4⟩

/-- C8: the storage-key function is injective in timestamp, random suffix and name, so two
uploads that differ in timestamp or in random suffix get distinct keys whatever their
original names are. -/
theorem filename_collision_free (t r t' r' : Nat) (name name' : String)
    (h : t ≠ t' ∨ r ≠ r') :
    filename t r name ≠ filename t' r' name' ∧
      Function.Injective (fun x : Nat × Nat × String => filename x.1 x.2.1 x.2.2) := by
  refine ⟨fun he => ?_, ?_⟩
  · obtain ⟨h1, h2, _⟩ := filename_inj he
    rcases h with h | h
    · exact h h1
    · exact h h2
  · rintro ⟨a, b, c⟩ ⟨a', b', c'⟩ he
    obtain ⟨h1, h2, h3⟩ := filename_inj he
    exact Prod.ext h1 (Prod.ext h2 h3)

theorem filename_collision_free_witness :
    (1700000000000 ≠ 1700000000000 ∨ 12 ≠ 1) ∧
      filename 1700000000000 12 "3-a.txt" ≠ filename 1700000000000 1 "2-3-a.txt" :=
  ⟨by decide, (filename_collision_free 1700000000000 12 1700000000000 1 "3-a.txt" "2-3-a.txt"
    (by decide)).1⟩

theorem digit_not_separator (c : Char) (h : isDecimalDigit c = true) :
    isPathSeparator c = false := by
  simp [isDecimalDigit, isPathSeparator] at *; omega

/-- The generated file name contains a path separator exactly when the name handed to the
callback does: the callback adds digits and dashes only. -/
theorem filename_separator_iff (t r : Nat) (name : String) :
    (∃ c ∈ (filename t r name).toList, isPathSeparator c = true) ↔
      (∃ c ∈ name.toList, isPathSeparator c = true) := by
  rw [filename_toList]
  constructor
  · rintro ⟨c, hc, hs⟩
    simp only [List.mem_append, List.mem_cons] at hc
    rcases hc with hc | hc | hc | hc | hc
    · rw [digit_not_separator c (toDigits_all_digit t c hc)] at hs; cases hs
    · subst hc; exact absurd hs (by decide)
    · rw [digit_not_separator c (toDigits_all_digit r c hc)] at hs; cases hs
    · subst hc; exact absurd hs (by decide)
    · exact ⟨c, hc, hs⟩
  · rintro ⟨c, hc, hs⟩
    exact ⟨c, List.mem_append_right _ (List.mem_cons_of_mem _
      (List.mem_append_right _ (List.mem_cons_of_mem _ hc))), hs⟩

/-- The base name kept by the parser has no path separator. -/
theorem basename_separator_free (path : String) :
    ∀ c ∈ (basename path).toList, isPathSeparator c = false := by
  intro c hc
  unfold basename at hc
  simp only at hc
  split_ifs at hc with h
  · simp at hc
  · have hmem : c ∈ path.toList.reverse.takeWhile (fun c => !isPathSeparator c) :=
      List.mem_reverse.mp hc
    simpa using List.mem_takeWhile_imp hmem

/-- The base name is an end of the name the client sent. -/
theorem basename_suffix (path : String) :
    (basename path).toList <:+ path.toList := by
  unfold basename
  simp only
  split_ifs with h
  · exact List.nil_suffix
  · show (path.toList.reverse.takeWhile (fun c => !isPathSeparator c)).reverse <:+ path.toList
    have hpre := List.takeWhile_prefix (fun c => !isPathSeparator c) (l := path.toList.reverse)
    have := List.reverse_suffix.mpr hpre
    rwa [List.reverse_reverse] at this

/-- Every run of the upload handler on a file part starts by writing at the generated path
inside the upload directory. -/
theorem postUpload_trace_head (env : Env) (st : State) (part : FilePart) :
    (postUpload env st (some part)).trace.head? =
      some (.writeFile (pathJoin env.uploadDirectory
        (filename env.now env.random part.originalname))) := by
  unfold postUpload create finalPath
  simp only
  split_ifs <;> rfl

/-- C9: for every file name a client sends, the upload route generates the storage key from
the base name the middleware keeps of it, an end of the sent name cut after its last path
separator: the generated file name contains no forward slash and no backslash, and the file
is written at the upload directory, a slash, and that file name. -/
theorem upload_key_separator_free (env : Env) (st : State) (client : ClientPart) :
    (∀ c ∈ (filename env.now env.random (receivePart client).originalname).toList,
        isPathSeparator c = false) ∧
      (receivePart client).originalname.toList <:+ client.filename.toList ∧
      (uploadRoute env st (some client)).trace.head? =
        some (.writeFile (env.uploadDirectory ++ "/" ++
          filename env.now env.random (receivePart client).originalname)) := by
  refine ⟨?_, basename_suffix client.filename, ?_⟩
  · intro c hc
    cases hsep : isPathSeparator c with
    | false => rfl
    | true =>
      obtain ⟨d, hd, hds⟩ :=
        (filename_separator_iff env.now env.random (receivePart client).originalname).mp
          ⟨c, hc, hsep⟩
      have := basename_separator_free client.filename d hd
      rw [hds] at this
      cases this
  · exact postUpload_trace_head env st (receivePart client)

/-! ## Identifier validation -/

theorem digit_not_whitespace (c : Char) (h : isDecimalDigit c = true) :
    isStrWhiteSpaceChar c = false := by
  simp [isDecimalDigit, isStrWhiteSpaceChar] at *; omega

theorem digit_not_sign (c : Char) (h : isDecimalDigit c = true) : ¬ (c = '+' ∨ c = '-') := by
  rintro (rfl | rfl) <;> exact absurd h (by decide)

theorem dropWhile_head_false (p : Char → Bool) (c : Char) (r : List Char)
    (h : p c = false) : (c :: r).dropWhile p = c :: r := by
  simp [List.dropWhile, h]

theorem trimString_digits (cs : List Char) (h : ∀ c ∈ cs, isDecimalDigit c = true) :
    trimString cs = cs := by
  unfold trimString
  have h1 : cs.dropWhile isStrWhiteSpaceChar = cs := by
    cases cs with
    | nil => rfl
    | cons c r => exact dropWhile_head_false _ c r (digit_not_whitespace c (h c (by simp)))
  rw [h1]
  have h2 : cs.reverse.dropWhile isStrWhiteSpaceChar = cs.reverse := by
    have hr : ∀ c ∈ cs.reverse, isDecimalDigit c = true := fun c hc =>
      h c (List.mem_reverse.mp hc)
    cases hrev : cs.reverse with
    | nil => rfl
    | cons c r =>
      rw [hrev] at hr
      exact dropWhile_head_false _ c r (digit_not_whitespace c (hr c (by simp)))
  rw [h2, List.reverse_reverse]

theorem isStrDecimalLiteral_digits (cs : List Char)
    (h : digits1 isDecimalDigit cs = true) : isStrDecimalLiteral cs = true := by
  cases cs with
  | nil => simp [digits1] at h
  | cons c r =>
    have hall : ∀ x ∈ c :: r, isDecimalDigit x = true := by
      simpa [digits1] using h
    have hdrop : (c :: r).dropWhile isDecimalDigit = [] := by
      rw [List.dropWhile_eq_nil_iff]; exact hall
    have htake : (c :: r).takeWhile isDecimalDigit = c :: r := by
      rw [List.takeWhile_eq_self_iff]; exact hall
    unfold isStrDecimalLiteral
    simp only [if_neg (digit_not_sign c (hall c (by simp)))]
    unfold isStrUnsignedDecimalLiteral
    rw [hdrop, htake]
    simp

theorem isNaNNumber_digits (fileId : String)
    (h : digits1 isDecimalDigit fileId.toList = true) : isNaNNumber fileId = false := by
  have hall : ∀ x ∈ fileId.toList, isDecimalDigit x = true := by
    have := h
    simp only [digits1, Bool.and_eq_true, List.all_eq_true] at this
    exact this.2
  unfold isNaNNumber
  rw [trimString_digits _ hall, isStrDecimalLiteral_digits _ h]
  simp

theorem isNaNNumber_of_readPk {fileId : String} {k : Nat} (h : readPk fileId = some k) :
    isNaNNumber fileId = false := by
  unfold readPk at h
  split at h
  · next hc => exact isNaNNumber_digits fileId hc.1
  · cases h

theorem readPk_toString (k : Nat) (h : k ≤ maxPk) : readPk (toString k) = some k := by
  have hd : digits1 isDecimalDigit (toString k).toList = true := by
    rw [toString_toList]
    simp only [digits1, Bool.and_eq_true, List.all_eq_true, Bool.not_eq_true',
      List.isEmpty_eq_false_iff_exists_mem]
    refine ⟨?_, toDigits_all_digit k⟩
    cases hk : Nat.toDigits 10 k with
    | nil => exact absurd hk (toDigits_ne_nil k)
    | cons c r => exact ⟨c, by simp⟩
  have hv : digitsValue (toString k).toList = k := by
    rw [toString_toList, digitsValue_toDigits]
  unfold readPk
  rw [if_pos ⟨hd, by rw [hv]; exact h⟩, hv]

/-! ## Catalog and blob directory -/

theorem findRecord_eq_none {catalog : List FileRecord} {k : Nat} :
    findRecord catalog k = none ↔ ∀ r ∈ catalog, r.fileId ≠ k := by
  simp [findRecord, List.find?_eq_none]

theorem findRecord_some {catalog : List FileRecord} {k : Nat} {r : FileRecord}
    (h : findRecord catalog k = some r) : r ∈ catalog ∧ r.fileId = k := by
  unfold findRecord at h
  exact ⟨List.mem_of_find?_eq_some h, by simpa using List.find?_some h⟩

theorem findRecord_filter_self (catalog : List FileRecord) (k : Nat) :
    findRecord (catalog.filter (fun r => !(r.fileId == k))) k = none := by
  rw [findRecord_eq_none]
  intro r hr
  simpa using (List.mem_filter.mp hr).2

theorem readBlob_removeBlob_self (blobs : List (String × Bytes)) (p : String) :
    readBlob (removeBlob blobs p) p = none := by
  simp [readBlob, removeBlob, List.find?_eq_none]

theorem readBlob_removeBlob_ne (blobs : List (String × Bytes)) {p q : String} (h : q ≠ p) :
    readBlob (removeBlob blobs p) q = readBlob blobs q := by
  unfold readBlob removeBlob
  induction blobs with
  | nil => rfl
  | cons b t ih =>
    by_cases hb : b.1 = p
    · have hq : (b.1 == q) = false := by
        simpa using fun e : b.1 = q => h (e.symm.trans hb)
      have hb2 : (b.1 == p) = true := by simpa using hb
      simp only [List.filter_cons, List.find?_cons, hb2, hq, Bool.not_true,
        Bool.false_eq_true, if_false]
      exact ih
    · have hb2 : (b.1 == p) = false := by simpa using hb
      simp only [List.filter_cons, hb2, Bool.not_false, if_true, List.find?_cons]
      cases hq : (b.1 == q)
      · exact ih
      · rfl

theorem readBlob_writeBlob_self (blobs : List (String × Bytes)) (p : String) (c : Bytes) :
    readBlob (writeBlob blobs p c) p = some c := by
  simp [readBlob, writeBlob]

theorem readBlob_writeBlob_ne (blobs : List (String × Bytes)) {p q : String} (c : Bytes)
    (h : q ≠ p) : readBlob (writeBlob blobs p c) q = readBlob blobs q := by
  have hpq : (p == q) = false := by
    simpa using fun e : p = q => h e.symm
  rw [← readBlob_removeBlob_ne blobs h]
  unfold readBlob writeBlob
  simp only [List.find?_cons, hpq]

/-! ## Handlers -/

theorem findByPk_of_readPk {env : Env} (st : State) {fileId : String} {k : Nat}
    (hwf : readPk fileId = some k) (hf : env.findFails = false) :
    findByPk env st fileId = some (findRecord st.catalog k) := by
  simp [findByPk, hf, hwf]

theorem findRecord_append_new (catalog : List FileRecord) (r : FileRecord)
    (h : findRecord catalog r.fileId = none) :
    findRecord (catalog ++ [r]) r.fileId = some r := by
  unfold findRecord at *
  rw [List.find?_append, h]
  simp

/-- What a successful upload leaves behind: a new row under a key that was unused and fits
the column, and the file written at the generated path. -/
theorem postUpload_created {env : Env} {st : State} {part : FilePart} {i : Nat}
    (h : (postUpload env st (some part)).response = ⟨201, none, .fileId i⟩) :
    i ≤ maxPk ∧ findRecord st.catalog i = none ∧
      (postUpload env st (some part)).state.catalog = st.catalog ++
        [{ fileId := i, originalName := part.originalname,
           filePath := finalPath env part.originalname,
           mimeType := part.mimetype, size := part.content.length,
           createdAt := env.insertTime, updatedAt := env.insertTime }] ∧
      (postUpload env st (some part)).state.blobs = writeBlob st.blobs
        (finalPath env part.originalname)
        part.content := by
  unfold postUpload create at *
  simp only at h ⊢
  split_ifs at h ⊢ with h1 h2 h3 h4
  all_goals first
    | (simp at h; done)
    | skip
  simp only [Response.mk.injEq, Body.fileId.injEq, true_and] at h
  subst h
  simp at h4
  exact ⟨by omega, h4, rfl, rfl⟩

/-- C1: round trip. When an upload succeeds with id `i`, retrieving `i` in the resulting
state (with the catalog reachable) answers 200 with exactly the uploaded bytes, which are the
blob at the new record's `filePath`, and with `Content-Type` set to the uploaded MIME type. -/
theorem upload_retrieve_roundtrip (env env2 : Env) (st : State) (part : FilePart) (i : Nat)
    (hup : (postUpload env st (some part)).response = ⟨201, none, .fileId i⟩)
    (hfind : env2.findFails = false) :
    (∃ r, findRecord (postUpload env st (some part)).state.catalog i = some r ∧
      r.mimeType = part.mimetype ∧
      readBlob (postUpload env st (some part)).state.blobs r.filePath = some part.content) ∧
    (getFile env2 (postUpload env st (some part)).state (toString i)).response =
      ⟨200, some part.mimetype, .file part.content⟩ := by
  obtain ⟨hle, hnew, hcat, hblobs⟩ := postUpload_created hup
  have hrec := findRecord_append_new st.catalog
    { fileId := i, originalName := part.originalname,
      filePath := finalPath env part.originalname,
      mimeType := part.mimetype, size := part.content.length,
      createdAt := env.insertTime, updatedAt := env.insertTime } hnew
  rw [← hcat] at hrec
  have hblob := readBlob_writeBlob_self st.blobs
    (finalPath env part.originalname) part.content
  rw [← hblobs] at hblob
  refine ⟨⟨_, hrec, rfl, hblob⟩, ?_⟩
  have hpk := readPk_toString i hle
  unfold getFile
  rw [isNaNNumber_of_readPk hpk, findByPk_of_readPk _ hpk hfind, hrec]
  simp only [Bool.false_eq_true, if_false, hblob]

theorem upload_retrieve_roundtrip_witness :
    (postUpload env0 st0 (some partA)).response = ⟨201, none, .fileId 1⟩ ∧
      env0.findFails = false ∧
      (getFile env0 (postUpload env0 st0 (some partA)).state (toString 1)).response =
        ⟨200, some "text/plain", .file [104, 101, 108, 108, 111]⟩ :=
  ⟨by decide, by decide,
    (upload_retrieve_roundtrip env0 env0 st0 partA 1 (by decide) (by decide)).2⟩

/-- With the catalog reachable, deleting an id read as a key without a row answers 404 after
the lookup alone and leaves the state untouched. -/
theorem deleteFile_not_found {env : Env} (st : State) {fileId : String} {k : Nat}
    (hwf : readPk fileId = some k) (hnone : findRecord st.catalog k = none)
    (hfind : env.findFails = false) :
    deleteFile env st fileId =
      ⟨⟨404, none, .error "File not found"⟩, st, [.findByPk fileId]⟩ := by
  unfold deleteFile
  rw [isNaNNumber_of_readPk hwf, findByPk_of_readPk _ hwf hfind, hnone]
  simp

/-- C2: for every state and every well-formed id, one the store reads as a key `k` (a
decimal numeral within the range of the integer column), with no row under `k`: retrieve and
delete both answer 404 "File not found", make no call but the lookup, and leave catalog and
blob directory unchanged (the catalog being reachable). -/
theorem unknown_id_not_found (env : Env) (st : State) (fileId : String) (k : Nat)
    (hwf : readPk fileId = some k) (habs : ∀ r ∈ st.catalog, r.fileId ≠ k)
    (hfind : env.findFails = false) :
    getFile env st fileId =
        ⟨⟨404, none, .error "File not found"⟩, st, [.findByPk fileId]⟩ ∧
      deleteFile env st fileId =
        ⟨⟨404, none, .error "File not found"⟩, st, [.findByPk fileId]⟩ := by
  have hnone : findRecord st.catalog k = none := findRecord_eq_none.mpr habs
  have hvalid : isNaNNumber fileId = false := isNaNNumber_of_readPk hwf
  have hlookup : findByPk env st fileId = some none := by
    rw [findByPk_of_readPk st hwf hfind, hnone]
  constructor
  · unfold getFile
    rw [hvalid, hlookup]
    simp
  · unfold deleteFile
    rw [hvalid, hlookup]
    simp

theorem unknown_id_not_found_witness :
    readPk "7" = some 7 ∧ (∀ r ∈ stDangling.catalog, r.fileId ≠ 7) ∧
      getFile env0 stDangling "7" =
        ⟨⟨404, none, .error "File not found"⟩, stDangling, [.findByPk "7"]⟩ ∧
      deleteFile env0 stDangling "7" =
        ⟨⟨404, none, .error "File not found"⟩, stDangling, [.findByPk "7"]⟩ :=
  ⟨by decide, by decide,
    unknown_id_not_found env0 stDangling "7" 7 (by decide) (by decide) (by decide)⟩

/-- What a successful delete has done: the id was read as a key with a row, the file of that
row was present and is removed, and the rows under the key are gone. -/
theorem deleteFile_success {env : Env} {st : State} {fileId : String}
    (h : (deleteFile env st fileId).response = ⟨200, none, .success true⟩) :
    ∃ k r, readPk fileId = some k ∧ findRecord st.catalog k = some r ∧
      (deleteFile env st fileId).state =
        { catalog := st.catalog.filter (fun x => !(x.fileId == k)), nextId := st.nextId,
          blobs := removeBlob st.blobs r.filePath } := by
  cases hnan : isNaNNumber fileId with
  | true => simp [deleteFile, hnan] at h
  | false =>
    cases hf : env.findFails with
    | true => simp [deleteFile, hnan, findByPk, hf] at h
    | false =>
      cases hpk : readPk fileId with
      | none => simp [deleteFile, hnan, findByPk, hf, hpk] at h
      | some k =>
        cases hrec : findRecord st.catalog k with
        | none => simp [deleteFile, hnan, findByPk, hf, hpk, hrec] at h
        | some r =>
          cases hu : env.unlinkFails with
          | true => simp [deleteFile, hnan, findByPk, hf, hpk, hrec, unlinkSync, hu] at h
          | false =>
            cases hb : (readBlob st.blobs r.filePath).isSome with
            | false =>
              simp [deleteFile, hnan, findByPk, hf, hpk, hrec, unlinkSync, hu, hb] at h
            | true =>
              cases hd : env.destroyFails with
              | true =>
                simp [deleteFile, hnan, findByPk, hf, hpk, hrec, unlinkSync, hu, hb, destroy,
                  hd] at h
              | false =>
                refine ⟨k, r, rfl, hrec, ?_⟩
                simp [deleteFile, hnan, findByPk, hf, hpk, hrec, unlinkSync, hu, hb, destroy,
                  hd]

/-- C3: deleting twice is safe. After a delete that answered `success: true`, neither the
row nor its file exists, and a second delete of the same id (with the catalog reachable)
answers 404 "File not found" and changes nothing. -/
theorem delete_twice_safe (env env2 : Env) (st : State) (fileId : String)
    (hdel : (deleteFile env st fileId).response = ⟨200, none, .success true⟩)
    (hfind : env2.findFails = false) :
    ∃ k r, readPk fileId = some k ∧ findRecord st.catalog k = some r ∧
      (∀ x ∈ (deleteFile env st fileId).state.catalog, x.fileId ≠ k) ∧
      readBlob (deleteFile env st fileId).state.blobs r.filePath = none ∧
      deleteFile env2 (deleteFile env st fileId).state fileId =
        ⟨⟨404, none, .error "File not found"⟩, (deleteFile env st fileId).state,
          [.findByPk fileId]⟩ := by
  obtain ⟨k, r, hpk, hrec, hst⟩ := deleteFile_success hdel
  have habs : ∀ x ∈ (deleteFile env st fileId).state.catalog, x.fileId ≠ k := by
    rw [hst]
    exact findRecord_eq_none.mp (findRecord_filter_self st.catalog k)
  refine ⟨k, r, hpk, hrec, habs, ?_, ?_⟩
  · rw [hst]; exact readBlob_removeBlob_self st.blobs r.filePath
  · exact deleteFile_not_found _ hpk (findRecord_eq_none.mpr habs) hfind

theorem delete_twice_safe_witness :
    (deleteFile env0 (postUpload env0 st0 (some partA)).state "1").response =
        ⟨200, none, .success true⟩ ∧
      ∃ k r, readPk "1" = some k ∧
        findRecord (postUpload env0 st0 (some partA)).state.catalog k = some r ∧
        (∀ x ∈ (deleteFile env0 (postUpload env0 st0 (some partA)).state "1").state.catalog,
          x.fileId ≠ k) ∧
        readBlob (deleteFile env0 (postUpload env0 st0 (some partA)).state "1").state.blobs
          r.filePath = none ∧
        deleteFile env0 (deleteFile env0 (postUpload env0 st0 (some partA)).state "1").state
            "1" =
          ⟨⟨404, none, .error "File not found"⟩,
            (deleteFile env0 (postUpload env0 st0 (some partA)).state "1").state,
            [.findByPk "1"]⟩ :=
  ⟨by decide,
    delete_twice_safe env0 env0 (postUpload env0 st0 (some partA)).state "1" (by decide)
      (by decide)⟩

/-- C4 (evaluation at a failing input): the text `1.5` is not a decimal integer, yet in
every state it passes the `isNaN(Number(fileId))` test of both routes and is handed to
`findByPk`, which cannot read it: the request ends in 500, not in 400, with the lookup in
the trace. -/
theorem fractional_id_reaches_catalog (env : Env) (st : State) :
    isNaNNumber "1.5" = false ∧ readPk "1.5" = none ∧
      getFile env st "1.5" =
        ⟨⟨500, none, .error "Unexpected server error"⟩, st, [.findByPk "1.5"]⟩ ∧
      deleteFile env st "1.5" =
        ⟨⟨500, none, .error "Unexpected server error"⟩, st, [.findByPk "1.5"]⟩ := by
  have hvalid : isNaNNumber "1.5" = false := by decide
  have hread : readPk "1.5" = none := by decide
  have hlookup : findByPk env st "1.5" = none := by
    unfold findByPk
    rw [hread]
    split <;> rfl
  refine ⟨hvalid, hread, ?_, ?_⟩
  · unfold getFile
    rw [hvalid, hlookup]
    simp
  · unfold deleteFile
    rw [hvalid, hlookup]
    simp

/-- C5 fails as stated: with a row whose file is absent, delete answers 500 and the row is
still in the catalog. -/
theorem delete_missing_blob_not_success :
    readPk "1" = some 1 ∧ (findRecord stDangling.catalog 1).isSome = true ∧
      readBlob stDangling.blobs "/srv/uploads/1-2-a.txt" = none ∧
      (deleteFile env0 stDangling "1").response =
        ⟨500, none, .error "Unexpected server error"⟩ ∧
      (deleteFile env0 stDangling "1").state = stDangling ∧
      (findRecord (deleteFile env0 stDangling "1").state.catalog 1).isSome = true := by
  decide

/-- C5 (as the code has it): when the row exists and its file is absent, the removal throws,
delete answers 500 without calling the catalog delete, and the state is unchanged, the row
included. -/
theorem delete_missing_blob_aborts (env : Env) (st : State) (fileId : String) (k : Nat)
    (r : FileRecord) (hwf : readPk fileId = some k) (hrec : findRecord st.catalog k = some r)
    (hblob : readBlob st.blobs r.filePath = none) (hfind : env.findFails = false) :
    deleteFile env st fileId =
      ⟨⟨500, none, .error "Unexpected server error"⟩, st,
        [.findByPk fileId, .unlink r.filePath]⟩ := by
  unfold deleteFile
  rw [isNaNNumber_of_readPk hwf, findByPk_of_readPk _ hwf hfind, hrec]
  simp [unlinkSync, hblob]

theorem delete_missing_blob_aborts_witness :
    readPk "1" = some 1 ∧ env0.findFails = false ∧
      deleteFile env0 stDangling "1" =
        ⟨⟨500, none, .error "Unexpected server error"⟩, stDangling,
          [.findByPk "1", .unlink "/srv/uploads/1-2-a.txt"]⟩ :=
  ⟨by decide, by decide,
    delete_missing_blob_aborts env0 stDangling "1" 1
      { fileId := 1, originalName := "a.txt", filePath := "/srv/uploads/1-2-a.txt",
        mimeType := "text/plain", size := 5, createdAt := 0, updatedAt := 0 }
      (by decide) (by decide) (by decide) (by decide)⟩

/-- C6: when the row exists and the removal of its file fails for a reason other than
absence, delete answers 500, the catalog delete is never called, and the state after the call
is the state before it, so the row is still present. -/
theorem delete_unlink_failure_keeps_record (env : Env) (st : State) (fileId : String)
    (k : Nat) (r : FileRecord) (hwf : readPk fileId = some k)
    (hrec : findRecord st.catalog k = some r) (hfind : env.findFails = false)
    (hfail : env.unlinkFails = true) :
    deleteFile env st fileId =
        ⟨⟨500, none, .error "Unexpected server error"⟩, st,
          [.findByPk fileId, .unlink r.filePath]⟩ ∧
      (∀ x, Effect.destroy x ∉ (deleteFile env st fileId).trace) ∧
      (deleteFile env st fileId).state.catalog = st.catalog ∧
      findRecord (deleteFile env st fileId).state.catalog k = some r := by
  have h : deleteFile env st fileId =
      ⟨⟨500, none, .error "Unexpected server error"⟩, st,
        [.findByPk fileId, .unlink r.filePath]⟩ := by
    unfold deleteFile
    rw [isNaNNumber_of_readPk hwf, findByPk_of_readPk _ hwf hfind, hrec]
    simp [unlinkSync, hfail]
  rw [h]
  exact ⟨rfl, fun x hx => by simp at hx, rfl, hrec⟩

theorem delete_unlink_failure_keeps_record_witness :
    readPk "1" = some 1 ∧
      (∀ x, Effect.destroy x ∉
        (deleteFile { env0 with unlinkFails := true }
          (postUpload env0 st0 (some partA)).state "1").trace) ∧
      (deleteFile { env0 with unlinkFails := true }
          (postUpload env0 st0 (some partA)).state "1").state.catalog =
        (postUpload env0 st0 (some partA)).state.catalog :=
  ⟨by decide,
    (delete_unlink_failure_keeps_record { env0 with unlinkFails := true }
      (postUpload env0 st0 (some partA)).state "1" 1
      { fileId := 1, originalName := "a.txt",
        filePath := "/srv/uploads/1700000000000-123456789-a.txt",
        mimeType := "text/plain", size := 5, createdAt := 1700000000002,
        updatedAt := 1700000000002 }
      (by decide) (by decide) (by decide) (by decide)).2.1,
    (delete_unlink_failure_keeps_record { env0 with unlinkFails := true }
      (postUpload env0 st0 (some partA)).state "1" 1
      { fileId := 1, originalName := "a.txt",
        filePath := "/srv/uploads/1700000000000-123456789-a.txt",
        mimeType := "text/plain", size := 5, createdAt := 1700000000002,
        updatedAt := 1700000000002 }
      (by decide) (by decide) (by decide) (by decide)).2.2.1⟩

/-- C7 fails as stated: when `create` rejects after the file has been written, the upload
answers 500, makes no call to remove the file although removal would succeed, and the file
is still in the directory. -/
theorem upload_create_failure_no_cleanup :
    ({ env0 with createFails := true } : Env).unlinkFails = false ∧
      postUpload { env0 with createFails := true } st0 (some partA) =
        ⟨⟨500, none, .error "Unexpected error during file upload"⟩,
          { catalog := [], nextId := 1,
            blobs := [("/srv/uploads/1700000000000-123456789-a.txt",
              [104, 101, 108, 108, 111])] },
          [.writeFile "/srv/uploads/1700000000000-123456789-a.txt",
            .create "/srv/uploads/1700000000000-123456789-a.txt"]⟩ ∧
      readBlob (postUpload { env0 with createFails := true } st0 (some partA)).state.blobs
          "/srv/uploads/1700000000000-123456789-a.txt" = some [104, 101, 108, 108, 111] := by
  decide

/-- C7 (as the code has it): when the file has been written under the generated path and
`create` then rejects, the upload answers 500 and no row is created; the only collaborator
calls are the write and the `create`, and the written file stays in the directory. -/
theorem upload_create_failure_leaves_blob (env : Env) (st : State) (part : FilePart)
    (hwrite : env.writeFails = false) (hsize : part.content.length ≤ fileSizeLimit)
    (hcreate : (create env
        { st with blobs := writeBlob st.blobs (finalPath env part.originalname) part.content }
        part.originalname (finalPath env part.originalname) part.mimetype
        part.content.length).1 = none) :
    (postUpload env st (some part)).response =
        ⟨500, none, .error "Unexpected error during file upload"⟩ ∧
      (postUpload env st (some part)).state.catalog = st.catalog ∧
      (postUpload env st (some part)).trace =
        [.writeFile (finalPath env part.originalname),
          .create (finalPath env part.originalname)] ∧
      readBlob (postUpload env st (some part)).state.blobs
          (finalPath env part.originalname) =
        some part.content := by
  have hguard : ¬ (env.writeFails = true ∨ fileSizeLimit < part.content.length) := by
    rw [hwrite]; simp; exact hsize
  unfold postUpload
  simp only [hguard, if_false]
  unfold create at hcreate ⊢
  simp only at hcreate ⊢
  split_ifs at hcreate ⊢ with h1 h2 h3
  · exact ⟨rfl, rfl, rfl, readBlob_writeBlob_self _ _ _⟩
  · exact ⟨rfl, rfl, rfl, readBlob_writeBlob_self _ _ _⟩
  · exact ⟨rfl, rfl, rfl, readBlob_writeBlob_self _ _ _⟩

theorem upload_create_failure_leaves_blob_witness :
    (postUpload { env0 with createFails := true } st0 (some partA)).response =
        ⟨500, none, .error "Unexpected error during file upload"⟩ ∧
      (postUpload { env0 with createFails := true } st0 (some partA)).state.catalog = [] :=
  ⟨(upload_create_failure_leaves_blob { env0 with createFails := true } st0 partA
      (by decide) (by decide) (by decide)).1,
    (upload_create_failure_leaves_blob { env0 with createFails := true } st0 partA
      (by decide) (by decide) (by decide)).2.1⟩

/-! ## No dangling record -/

theorem noDangling_of_eq {st st' : State} (h : NoDangling st)
    (hc : st'.catalog = st.catalog) (hb : st'.blobs = st.blobs) : NoDangling st' := by
  unfold NoDangling at *
  rw [hc, hb]; exact h

theorem path_ne_of_fresh {st : State} {p : String} (h : NoDangling st)
    (hfresh : readBlob st.blobs p = none) : ∀ r ∈ st.catalog, r.filePath ≠ p := by
  intro r hr he
  have := h.1 r hr
  rw [he, hfresh] at this
  cases this

theorem noDangling_write {st st' : State} {p : String} {c : Bytes} (h : NoDangling st)
    (hfresh : readBlob st.blobs p = none) (hc : st'.catalog = st.catalog)
    (hb : st'.blobs = writeBlob st.blobs p c) : NoDangling st' := by
  refine ⟨?_, ?_⟩
  · intro r hr
    rw [hc] at hr
    rw [hb, readBlob_writeBlob_ne st.blobs c (path_ne_of_fresh h hfresh r hr)]
    exact h.1 r hr
  · rw [hc]; exact h.2

theorem noDangling_write_create {st st' : State} {p : String} {c : Bytes} {r : FileRecord}
    (h : NoDangling st) (hfresh : readBlob st.blobs p = none) (hr : r.filePath = p)
    (hc : st'.catalog = st.catalog ++ [r]) (hb : st'.blobs = writeBlob st.blobs p c) :
    NoDangling st' := by
  refine ⟨?_, ?_⟩
  · intro x hx
    rw [hc] at hx
    rw [hb]
    rcases List.mem_append.mp hx with hx | hx
    · rw [readBlob_writeBlob_ne st.blobs c (path_ne_of_fresh h hfresh x hx)]
      exact h.1 x hx
    · rw [List.mem_singleton] at hx
      rw [hx, hr, readBlob_writeBlob_self]; rfl
  · rw [hc, List.map_append, List.nodup_append]
    refine ⟨h.2, List.nodup_singleton _, ?_⟩
    intro q hq hq'
    rw [List.map_singleton, List.mem_singleton] at hq'
    obtain ⟨x, hx, hxq⟩ := List.mem_map.mp hq
    exact path_ne_of_fresh h hfresh x hx (by rw [hxq, hq', hr])

theorem noDangling_delete {st st' : State} {k : Nat} {r : FileRecord} (h : NoDangling st)
    (hrec : findRecord st.catalog k = some r)
    (hc : st'.catalog = st.catalog.filter (fun x => !(x.fileId == k)))
    (hb : st'.blobs = removeBlob st.blobs r.filePath) : NoDangling st' := by
  obtain ⟨hrmem, hrk⟩ := findRecord_some hrec
  refine ⟨?_, ?_⟩
  · intro x hx
    rw [hc] at hx
    obtain ⟨hxmem, hxk⟩ := List.mem_filter.mp hx
    have hne : x.filePath ≠ r.filePath := by
      intro he
      have hxr : x = r := List.inj_on_of_nodup_map h.2 hxmem hrmem he
      rw [hxr, hrk] at hxk
      simp at hxk
    rw [hb, readBlob_removeBlob_ne st.blobs hne]
    exact h.1 x hxmem
  · rw [hc]
    exact List.Nodup.sublist ((List.filter_sublist st.catalog).map _) h.2

theorem postUpload_state (env : Env) (st : State) (part : FilePart) :
    ((postUpload env st (some part)).state.catalog = st.catalog ∧
        (postUpload env st (some part)).state.blobs = st.blobs) ∨
      ((postUpload env st (some part)).state.catalog = st.catalog ∧
        (postUpload env st (some part)).state.blobs =
          writeBlob st.blobs (finalPath env part.originalname) part.content) ∨
      (∃ r : FileRecord, r.filePath = finalPath env part.originalname ∧
        (postUpload env st (some part)).state.catalog = st.catalog ++ [r] ∧
        (postUpload env st (some part)).state.blobs =
          writeBlob st.blobs (finalPath env part.originalname) part.content) := by
  unfold postUpload create
  simp only
  split_ifs
  · exact Or.inl ⟨rfl, rfl⟩
  · exact Or.inr (Or.inl ⟨rfl, rfl⟩)
  · exact Or.inr (Or.inl ⟨rfl, rfl⟩)
  · exact Or.inr (Or.inl ⟨rfl, rfl⟩)
  · exact Or.inr (Or.inr ⟨_, rfl, rfl, rfl⟩)

theorem getFile_state (env : Env) (st : State) (fileId : String) :
    (getFile env st fileId).state = st := by
  unfold getFile
  split
  · rfl
  · split
    · rfl
    · rfl
    · split <;> rfl

theorem deleteFile_state (env : Env) (st : State) (fileId : String)
    (hd : env.destroyFails = false) :
    (deleteFile env st fileId).state = st ∨
      ∃ k r, findRecord st.catalog k = some r ∧
        (deleteFile env st fileId).state.catalog =
          st.catalog.filter (fun x => !(x.fileId == k)) ∧
        (deleteFile env st fileId).state.blobs = removeBlob st.blobs r.filePath := by
  cases hnan : isNaNNumber fileId with
  | true => left; simp [deleteFile, hnan]
  | false =>
    cases hf : env.findFails with
    | true => left; simp [deleteFile, hnan, findByPk, hf]
    | false =>
      cases hpk : readPk fileId with
      | none => left; simp [deleteFile, hnan, findByPk, hf, hpk]
      | some k =>
        cases hrec : findRecord st.catalog k with
        | none => left; simp [deleteFile, hnan, findByPk, hf, hpk, hrec]
        | some r =>
          cases hu : env.unlinkFails with
          | true => left; simp [deleteFile, hnan, findByPk, hf, hpk, hrec, unlinkSync, hu]
          | false =>
            cases hb : (readBlob st.blobs r.filePath).isSome with
            | false =>
              left; simp [deleteFile, hnan, findByPk, hf, hpk, hrec, unlinkSync, hu, hb]
            | true =>
              right
              refine ⟨k, r, hrec, ?_, ?_⟩ <;>
                simp [deleteFile, hnan, findByPk, hf, hpk, hrec, unlinkSync, hu, hb, destroy,
                  hd]

/-- C10: no dangling record. The predicate "the file of every row exists and no two rows
name the same file" is preserved by every upload whose generated path names no existing
file, by every retrieve, and by every delete in which the catalog delete does not fail;
write failures, removal failures and failures of `create` and of the lookup are allowed. -/
theorem noDangling_preserved (env : Env) (st : State) (hinv : NoDangling st) :
    (∀ file : Option FilePart,
        (∀ part, file = some part →
          readBlob st.blobs (finalPath env part.originalname) = none) →
        NoDangling (postUpload env st file).state) ∧
      (∀ fileId : String, NoDangling (getFile env st fileId).state) ∧
      (∀ fileId : String, env.destroyFails = false →
        NoDangling (deleteFile env st fileId).state) := by
  refine ⟨?_, ?_, ?_⟩
  · intro file hfresh
    cases file with
    | none => exact hinv
    | some part =>
      have hf := hfresh part rfl
      rcases postUpload_state env st part with ⟨hc, hb⟩ | ⟨hc, hb⟩ | ⟨r, hr, hc, hb⟩
      · exact noDangling_of_eq hinv hc hb
      · exact noDangling_write hinv hf hc hb
      · exact noDangling_write_create hinv hf hr hc hb
  · intro fileId
    rw [getFile_state]; exact hinv
  · intro fileId hd
    rcases deleteFile_state env st fileId hd with h | ⟨k, r, hrec, hc, hb⟩
    · rw [h]; exact hinv
    · exact noDangling_delete hinv hrec hc hb

theorem noDangling_preserved_witness :
    NoDangling st0 ∧ NoDangling (postUpload env0 st0 (some partA)).state ∧
      NoDangling (getFile env0 (postUpload env0 st0 (some partA)).state "1").state ∧
      NoDangling (deleteFile { env0 with unlinkFails := true }
        (postUpload env0 st0 (some partA)).state "1").state :=
  ⟨by decide,
    (noDangling_preserved env0 st0 (by decide)).1 (some partA) (fun _ _ => rfl),
    (noDangling_preserved env0 (postUpload env0 st0 (some partA)).state (by decide)).2.1 "1",
    (noDangling_preserved { env0 with unlinkFails := true }
      (postUpload env0 st0 (some partA)).state (by decide)).2.2 "1" (by decide)⟩

end FileService
